import Mathlib

/-!
Verification development for the `zgres` deadman agent
(`src/zgres/deadman.py`).  The agent's state document, health tracking,
willingness computation, master-lock handling, bootstrap and takeover
logic are embedded shallowly: Python dictionaries become ordered
association lists, plugin calls that query the environment are modelled
by an `Env` record fixing their responses, and plugin calls that act on
the outside world are traced as an explicit list of `Effect`s.

Python dictionary values are modelled by `Val`.  The agent only ever
stores scalars, flat dictionaries of scalars (connection info and
monitor data) and the health-problems mapping (whose entries are
`{reason, can_be_replica}` records, see `App.unhealthy`) inside its
documents, so `Val` carries exactly those shapes; this avoids a nested
inductive while covering every document the modelled code constructs.
Timestamps (`time.time()`) are modelled as integers — only their
ordering and addition matter to the agent.
-/

namespace Zgres

/-- One health problem, as recorded by `App.unhealthy`:
`dict(reason=reason, can_be_replica=can_be_replica)`. -/
structure Problem where
  reason : String
  can_be_replica : Bool
deriving DecidableEq, Repr

/-- A scalar Python value. -/
inductive Scalar where
  | null
  | bool (b : Bool)
  | num (n : Int)
  | str (s : String)
deriving DecidableEq, Repr

/-- A Python value as stored in the agent's documents. -/
inductive Val where
  | null
  | bool (b : Bool)
  | num (n : Int)
  | str (s : String)
  | problems (d : List (String × Problem))
  | dict (d : List (String × Scalar))
deriving DecidableEq, Repr

/-- Ordered association list with unique keys: a Python `dict`. -/
abbrev Assoc (α : Type) := List (String × α)

/-- `d.get(k)`: the first binding of `k`. -/
def aget {α : Type} : Assoc α → String → Option α
  | [], _ => Option.none
  | kv :: rest, k => if kv.1 = k then some kv.2 else aget rest k

/-- `k in d`. -/
def acontains {α : Type} (d : Assoc α) (k : String) : Bool :=
  (aget d k).isSome

/-- `d[k] = v`: replace the binding in place, or append a new one. -/
def aset {α : Type} : Assoc α → String → α → Assoc α
  | [], k, v => [(k, v)]
  | kv :: rest, k, v => if kv.1 = k then (k, v) :: rest else kv :: aset rest k v

/-- `d.pop(k)` (the removal part): drop the binding of `k`. -/
def aerase {α : Type} : Assoc α → String → Assoc α
  | [], _ => []
  | kv :: rest, k => if kv.1 = k then rest else kv :: aerase rest k

/-- A state / connection-info document: keys bound to `Val`s. -/
abbrev Doc := Assoc Val

/-- `d.get(k, default)`. -/
def dgetD (d : Doc) (k : String) (default : Val) : Val :=
  (aget d k).getD default

/-- `d.update(other)`: merge the bindings of `other` into `d`. -/
def dmerge (d other : Doc) : Doc :=
  other.foldl (fun acc kv => aset acc kv.1 kv.2) d

/-- Python truthiness of a value (`bool(v)`), used by
`state.get('health_problems', True)` in `App._update_auto_state`. -/
def pythonTruthy : Val → Bool
  | Val.null => false
  | Val.bool b => b
  | Val.num n => n != 0
  | Val.str s => s != ""
  | Val.problems d => !d.isEmpty
  | Val.dict d => !d.isEmpty

/-- The mutable attributes of a deadman `App` object that the modelled
methods read or write (`App.__init__` plus the class attributes).
`_state`, `_conn_info` and `_master_lock_owner` keep their Python names
minus the underscore prefix. -/
structure AppState where
  my_id : Option String
  health_problems : Assoc Problem
  state : Doc
  conn_info : Doc
  database_identifier : Option String
  master_lock_owner : Option String
  exit_code : Nat
deriving DecidableEq, Repr

/-- A fresh `App` as built by `App.__init__` (`my_id`,
`database_identifier` and `_exit_code = 0` come from class attributes;
`_master_lock_owner` is unset before `master_lock_changed` runs, we
model it as `None`). -/
def App.start : AppState :=
  { my_id := Option.none
    health_problems := []
    state := []
    conn_info := []
    database_identifier := Option.none
    master_lock_owner := Option.none
    exit_code := 0 }

/-- Outward-acting plugin calls, recorded in order.  Query-style calls
(`pg_replication_role`, `dcs_get_timeline`, …) are answered by `Env`
fields instead of being traced.  `restart_call t` marks an invocation of
`App.restart(t)`; `sleep`/`async_sleep` are in ticks;
`sched_unhealthy_master d` records scheduling of
`_handle_unhealthy_master` with delay `d` ticks. -/
inductive Effect where
  | dcs_set_state (doc : Doc)
  | dcs_set_timeline (n : Int)
  | dcs_set_conn_info (doc : Doc)
  | dcs_delete_conn_info
  | dcs_set_database_identifier (id : String)
  | dcs_lock (name : String)
  | dcs_disconnect
  | dcs_watch
  | plugins_init
  | pg_stop
  | pg_start
  | pg_initdb
  | pg_reset
  | pg_restore
  | pg_backup
  | pg_setup_replication
  | pg_stop_replication
  | start_monitoring
  | sched_takeover
  | sched_unhealthy_master (delay : Nat)
  | sleep (ticks : Nat)
  | async_sleep (ticks : Nat)
  | loop_stop
  | restart_call (ticks : Nat)
  | notify_master_lock (owner : Option String)
deriving DecidableEq, Repr

/-- Responses of the query-style plugin calls made during one modelled
method invocation.  Where the code queries the same capability twice
expecting a possibly different answer (e.g. `pg_replication_role`
after `pg_stop_replication`), separate fields hold the successive
answers.  `vetoes = none` models an absent `veto_takeover` plugin
(`self._plugins.veto_takeover is None`); otherwise it lists the
`(plugin_name, vetoed)` pairs the providers return. -/
structure Env where
  /-- `time.time()`. -/
  now : Int
  /-- `veto_takeover` providers' answers, `none` if no provider. -/
  vetoes : Option (List (String × Bool))
  /-- `pg_replication_role()` while the database is in its current role. -/
  replication_role : Option String
  /-- `pg_replication_role()` after `pg_stop_replication()`. -/
  role_after_stop_replication : Option String
  /-- `pg_replication_role()` as queried inside `App.restart`. -/
  role_at_restart : Option String
  /-- `pg_get_timeline()`. -/
  pg_timeline : Int
  /-- `dcs_get_timeline()`. -/
  dcs_timeline : Int
  /-- `get_my_id()`. -/
  my_id : String
  /-- `dcs_get_database_identifier()` read in `initialize`. -/
  dcs_database_identifier : Option String
  /-- `pg_get_database_identifier()` read in `initialize`. -/
  pg_database_identifier : String
  /-- result of `dcs_lock('master')` in `initialize`. -/
  master_lock_granted : Bool
  /-- `dcs_get_lock_owner('master')`. -/
  lock_owner : Option String
  /-- `pg_get_database_identifier()` read in `master_bootstrap`. -/
  mb_pg_database_identifier : String
  /-- result of `dcs_lock('database_identifier')`. -/
  mb_dbid_lock_granted : Bool
  /-- `dcs_get_database_identifier()` re-read under that lock. -/
  mb_dcs_dbid_after_lock : Option String
  /-- result of `dcs_set_database_identifier(...)`. -/
  mb_set_dbid_ok : Bool
  /-- whether `pg_restore()` raises in `replica_bootstrap`. -/
  rb_restore_raises : Bool
  /-- `pg_get_database_identifier()` after the restore. -/
  rb_pg_database_identifier : String
  /-- `pg_replication_role()` after `pg_setup_replication()`. -/
  rb_role_after_setup : Option String
  /-- `get_conn_info()` providers' `(plugin_name, info)` results. -/
  conn_info_results : List (String × Doc)
  /-- `dcs_list_state()`: every node's published `(id, state)`. -/
  dcs_states : List (String × Doc)
  /-- the `best_replicas` ranker's output on the willing replicas. -/
  ranked_replicas : List (String × Doc)
  /-- result of `dcs_lock('master')` inside `App.healthy`. -/
  healthy_lock_granted : Bool
  /-- whether any `master_lock_changed` subscriber plugin exists. -/
  has_mlc_subscribers : Bool
deriving Repr

/-! ## `willing_replicas` (module-level generator, deadman.py:153) -/

/-- The hard-coded age gate of `willing_replicas`: a replica's
`willing` timestamp must be more than 600 seconds old. -/
def WILLINGNESS_MIN_AGE : Int := 600

/-- Numeric value of a `willing` entry as Python's `+` would coerce it
(`True`/`False` are `1`/`0`); `none` for values on which
`state['willing'] + 600` would raise `TypeError` — such states are
outside the modelled domain. -/
def valAsTime : Val → Option Int
  | Val.num n => some n
  | Val.bool b => some (if b then 1 else 0)
  | _ => Option.none

/-- The per-entry test of `willing_replicas`: skip when
`state.get('willing', None) is None`, otherwise keep the entry iff
`state['willing'] + 600 < time.time()`. -/
def willingFilter (now : Int) (st : Doc) : Bool :=
  match aget st "willing" with
  | Option.none => false
  | some Val.null => false
  | some v =>
    match valAsTime v with
    | some t => decide (t + WILLINGNESS_MIN_AGE < now)
    | Option.none => false

/-- `willing_replicas(states)` at a fixed current time `now`: keep the
`(id, state)` pairs whose `willing` entry is non-null and older than
`WILLINGNESS_MIN_AGE` seconds. -/
def willing_replicas (now : Int) (states : List (String × Doc)) :
    List (String × Doc) :=
  states.filter fun p => willingFilter now p.2

/-! ## `update_state` and `_update_auto_state` (deadman.py:311-349) -/

/-- The `willing` flag computed by `App._update_auto_state` before it
touches the document: start from `True`, clear it when
`state.get('health_problems', True)` is truthy, when
`state.get('replication_role', None) != 'replica'`, and — if still set
and a `veto_takeover` plugin exists — when any provider vetoes. -/
def willingFlag (env : Env) (state : Doc) : Bool :=
  let willing := true
  let willing :=
    if pythonTruthy (dgetD state "health_problems" (Val.bool true)) then false
    else willing
  let willing :=
    if dgetD state "replication_role" Val.null ≠ Val.str "replica" then false
    else willing
  if willing then
    match env.vetoes with
    | Option.none => willing
    | some vs => if vs.any (fun p => p.2) then false else willing
  else willing

/-- `App._update_auto_state`: recompute the derived `willing` key on
the state document; returns the new document and whether it changed. -/
def updateAutoState (env : Env) (state : Doc) : Doc × Bool :=
  let willing := willingFlag env state
  if willing ∧ dgetD state "willing" Val.null = Val.null then
    (aset state "willing" (Val.num env.now), true)
  else if ¬ willing ∧ dgetD state "willing" Val.null ≠ Val.null then
    (aset state "willing" Val.null, true)
  else (state, false)

/-- One step of the merge loop of `App.update_state`: skip the
automatic key `'willing'` and keys reserved by the connection info,
compare against the existing binding (a missing key always counts as
changed, `_missing`), and record the new binding. -/
def mergeStep (conn_info : Doc) (acc : Doc × Bool) (kv : String × Val) :
    Doc × Bool :=
  if kv.1 = "willing" ∨ acontains conn_info kv.1 then acc
  else
    match aget acc.1 kv.1 with
    | some existing =>
      if kv.2 = existing then acc else (aset acc.1 kv.1 kv.2, true)
    | Option.none => (aset acc.1 kv.1 kv.2, true)

/-- The merge loop of `App.update_state` over all keyword arguments. -/
def mergeKW (conn_info : Doc) (init : Doc × Bool) (kw : List (String × Val)) :
    Doc × Bool :=
  kw.foldl (mergeStep conn_info) init

/-- `App.update_state(**kw)`: merge `kw`, recompute the automatic
state, and — when anything changed and the reserved problem key
`'zgres.initialize'` is absent from `health_problems` — write the
document to the DCS. -/
def update_state (env : Env) (app : AppState) (kw : List (String × Val)) :
    AppState × List Effect :=
  let m := mergeKW app.conn_info (app.state, false) kw
  let a := updateAutoState env m.1
  let changed := a.2 || m.2
  let app' := { app with state := a.1 }
  if changed ∧ ¬ acontains app.health_problems "zgres.initialize" then
    (app', [Effect.dcs_set_state a.1])
  else (app', [])

/-! ## `restart`, `unhealthy`, `healthy` (deadman.py:425-471, 498-505) -/

/-- The trace of `App.restart(timeout)`: stop postgresql when the node
is master (split-brain guard), disconnect from the DCS, block for
`timeout` ticks, stop the event loop.  `restart_call` marks the
invocation itself.  `role` is `pg_replication_role()` as queried inside
`restart`. -/
def restartEffects (role : Option String) (timeout : Nat) : List Effect :=
  Effect.restart_call timeout ::
    ((if role = some "master" then [Effect.pg_stop] else []) ++
      [Effect.dcs_disconnect, Effect.sleep timeout, Effect.loop_stop])

/-- The effects of the tail of `App.unhealthy` (after the state was
updated): nothing while initializing; otherwise withdraw connection
info (always for a non-replica, for a replica only when it cannot keep
serving) and, for a non-replica, schedule `_handle_unhealthy_master`
(via `loop.call_soon`). -/
def unhealthyEffects (env : Env) (hp : Assoc Problem)
    (can_be_replica : Bool) : List Effect :=
  if acontains hp "zgres.initialize" then []
  else if env.replication_role = some "replica" then
    if can_be_replica then [] else [Effect.dcs_delete_conn_info]
  else [Effect.dcs_delete_conn_info, Effect.sched_unhealthy_master 0]

/-- `App.unhealthy(key, reason, can_be_replica=False)`: record the
problem, push the new mapping into the state document, then act as
`unhealthyEffects` describes. -/
def unhealthy (env : Env) (app : AppState) (key reason : String)
    (can_be_replica : Bool) : AppState × List Effect :=
  let app :=
    { app with
      health_problems :=
        aset app.health_problems key
          { reason := reason, can_be_replica := can_be_replica } }
  let u := update_state env app [("health_problems", Val.problems app.health_problems)]
  (u.1, u.2 ++ unhealthyEffects env u.1.health_problems can_be_replica)

/-- The effects of the tail of `App.healthy` (after the problem was
removed and the state updated): when problems remain, only a log;
when the last problem cleared, a master re-asserts the lock — calling
`restart(60)` on failure — and the agent republishes its connection
info (`_set_conn_info`). -/
def healthyEffects (env : Env) (app : AppState) : List Effect :=
  if app.health_problems.isEmpty then
    (if env.replication_role = some "master" then
      [Effect.dcs_lock "master"] ++
        (if env.healthy_lock_granted then []
         else restartEffects env.role_at_restart 60)
    else []) ++ [Effect.dcs_set_conn_info app.conn_info]
  else []

/-- `App.healthy(key)`: pop the problem (a no-op when absent), push the
new mapping into the state document, then act as `healthyEffects`
describes. -/
def healthy (env : Env) (app : AppState) (key : String) :
    AppState × List Effect :=
  match aget app.health_problems key with
  | Option.none => (app, [])
  | some _ =>
    let app := { app with health_problems := aerase app.health_problems key }
    let u := update_state env app [("health_problems", Val.problems app.health_problems)]
    (u.1, u.2 ++ healthyEffects env u.1)

/-! ## `master_lock_changed` (deadman.py:355-381) -/

/-- Result of a method that can raise: the new object state, the traced
effects up to the point of return or raise, and the exception text if
one was raised. -/
structure MLCResult where
  app : AppState
  effects : List Effect
  raised : Option String
deriving Repr

/-- `App.master_lock_changed(owner)`: record the owner; if we hold the
lock and are replicating, stop replication, raise unless the role
became `master`, publish the timeline (`_update_timeline`) and the new
role; if someone else holds it while we are master, `restart(10)`;
if nobody holds it, schedule a takeover; finally notify subscriber
plugins. -/
def master_lock_changed (env : Env) (app : AppState) (owner : Option String) :
    MLCResult :=
  let app := { app with master_lock_owner := owner }
  let notify :=
    if env.has_mlc_subscribers then [Effect.notify_master_lock owner] else []
  if owner = app.my_id then
    if env.replication_role = some "replica" then
      if env.role_after_stop_replication ≠ some "master" then
        { app := app
          effects := [Effect.pg_stop_replication]
          raised := some "I should have become a master already!" }
      else
        let u := update_state env app [("replication_role", Val.str "master")]
        { app := u.1
          effects :=
            [Effect.pg_stop_replication, Effect.dcs_set_timeline env.pg_timeline] ++
              u.2 ++ notify
          raised := Option.none }
    else { app := app, effects := notify, raised := Option.none }
  else
    let restartEffs :=
      if env.replication_role = some "master" then
        restartEffects env.role_at_restart 10
      else []
    let takeoverEffs := if owner = Option.none then [Effect.sched_takeover] else []
    { app := app
      effects := restartEffs ++ takeoverEffs ++ notify
      raised := Option.none }

/-! ## Bootstrap and `initialize` (deadman.py:192-296) -/

/-- `App.replica_bootstrap`: stop, initdb, restore (resetting and
re-raising on restore failure), set up replication, then verify the
node is a replica of the right database; on mismatch reset and return
5, otherwise return 0. -/
def replica_bootstrap (env : Env) (app : AppState) :
    AppState × List Effect × Except String Nat :=
  let e0 := [Effect.pg_stop, Effect.pg_initdb, Effect.pg_restore]
  if env.rb_restore_raises then
    (app, e0 ++ [Effect.pg_reset], Except.error "pg_restore raised")
  else
    let e1 := e0 ++ [Effect.pg_setup_replication]
    if env.rb_role_after_setup ≠ some "replica" ∨
        some env.rb_pg_database_identifier ≠ app.database_identifier then
      (app, e1 ++ [Effect.pg_reset], Except.ok 5)
    else (app, e1, Except.ok 0)

/-- `App.master_bootstrap`: initdb and start, then race for the
`database_identifier` lock; under it, back up and publish the database
identifier (an unexpected publish failure raises); losing the race
returns 5 (retry), the other paths return 0. -/
def master_bootstrap (env : Env) (app : AppState) :
    AppState × List Effect × Except String Nat :=
  let e0 := [Effect.pg_initdb, Effect.pg_start,
             Effect.dcs_lock "database_identifier"]
  if env.mb_dbid_lock_granted then
    if env.mb_dcs_dbid_after_lock ≠ Option.none then (app, e0, Except.ok 0)
    else
      let app := { app with database_identifier := some env.mb_pg_database_identifier }
      let e1 := e0 ++ [Effect.pg_backup,
                       Effect.dcs_set_database_identifier env.mb_pg_database_identifier]
      if env.mb_set_dbid_ok then (app, e1, Except.ok 0)
      else (app, e1,
            Except.error "Something is VERY badly wrong.... this should never happen....")
  else (app, e0, Except.ok 5)

/-- `App._get_conn_info_from_plugins`: merge every provider's info into
`_conn_info` (later providers override, which is only logged), then
mirror it into the state document. -/
def getConnInfoFromPlugins (env : Env) (app : AppState) : AppState :=
  let ci := env.conn_info_results.foldl (fun acc pr => dmerge acc pr.2) app.conn_info
  { app with conn_info := ci, state := dmerge app.state ci }

/-- `App.initialize` (named `initApp` here): mark the agent
initializing, run plugin setup, read identifiers, dispatch to a
bootstrap when the database identifier is missing or differs, otherwise
publish the replication role and — for a master — acquire the lock
(stopping, comparing timelines, possibly resetting, and retrying in 5
ticks when it is taken); then start the database and monitors, install
watches, gather connection info and clear the initializing problem.
Returns `none` on success or `some n`: retry in `n` ticks. -/
def initApp (env : Env) (app : AppState) :
    AppState × List Effect × Except String (Option Nat) :=
  let u := unhealthy env app "zgres.initialize" "Initializing" false
  let app := u.1
  let e1 := u.2 ++ [Effect.plugins_init]
  let app := { app with my_id := some env.my_id,
                        database_identifier := env.dcs_database_identifier }
  match env.dcs_database_identifier with
  | Option.none =>
    let r := master_bootstrap env app
    (r.1, e1 ++ r.2.1, r.2.2.map some)
  | some dbid =>
    if env.pg_database_identifier ≠ dbid then
      let r := replica_bootstrap env app
      (r.1, e1 ++ r.2.1, r.2.2.map some)
    else
      let role := env.replication_role
      let u2 := update_state env app
        [("replication_role", match role with
                              | Option.none => Val.null
                              | some s => Val.str s)]
      let app := u2.1
      let e2 := e1 ++ u2.2
      if role = Option.none then
        (app, e2, Except.error "I should have a replication role already")
      else if role = some "master" ∧ ¬ env.master_lock_granted then
        let e3 := e2 ++ [Effect.dcs_lock "master", Effect.pg_stop] ++
          (if env.dcs_timeline > env.pg_timeline then [Effect.pg_reset] else [])
        (app, e3, Except.ok (some 5))
      else
        let e3 := e2 ++
          (if role = some "master" then [Effect.dcs_lock "master"] else []) ++
          [Effect.pg_start, Effect.start_monitoring, Effect.dcs_watch]
        let app := getConnInfoFromPlugins env app
        let h := healthy env app "zgres.initialize"
        let app := h.1
        let e4 := e3 ++ h.2 ++
          (if ¬ app.health_problems.isEmpty ∧ role = some "master" then
            [Effect.sched_unhealthy_master 300]
          else [])
        (app, e4, Except.ok Option.none)

/-! ## `run` (deadman.py:476-485) -/

/-- How a call to `App.run` leaves the process. -/
inductive RunOutcome where
  /-- the event loop was stopped and `run` returned this exit code
  (the process then exits with it via `sys.exit(app.run())`). -/
  | exited (code : Nat)
  /-- initialization succeeded and the event loop runs forever. -/
  | eventLoop
  /-- an exception escaped `initialize` (and hence `run`). -/
  | raised (msg : String)
deriving DecidableEq, Repr

/-- `App.run`: initialize; when `initialize` returns a timeout, call
`restart(timeout)` — which stops the (not yet running) event loop — and
return `_exit_code` (never changed on this path, hence 0); otherwise
run the event loop forever. -/
def run (env : Env) (app : AppState) :
    RunOutcome × AppState × List Effect :=
  let r := initApp env app
  match r.2.2 with
  | Except.error m => (RunOutcome.raised m, r.1, r.2.1)
  | Except.ok (some t) =>
    (RunOutcome.exited r.1.exit_code, r.1,
      r.2.1 ++ restartEffects env.role_at_restart t)
  | Except.ok Option.none => (RunOutcome.eventLoop, r.1, r.2.1)

/-! ## Takeover (deadman.py:383-423) -/

/-- `App._am_i_best_replica`: ask the ranker for the best of the
willing replicas and report whether this node is among them.  The
ranker's answer on `willing_replicas(dcs_list_state())` is fixed by
`env.ranked_replicas`. -/
def am_i_best_replica (env : Env) (app : AppState) : Bool :=
  env.ranked_replicas.any fun p => some p.1 = app.my_id

/-- How one pass of the `while True` body of `App._try_takeover`
ends. -/
inductive TakeoverStep where
  /-- `break`: a new master appeared. -/
  | brk
  /-- `dcs_lock('master')` was attempted. -/
  | lockAttempted
  /-- `continue`: rechecking local state rendered the node unwilling. -/
  | abstainedUnwilling
  /-- the node is not among the best replicas. -/
  | abstainedNotBest
  /-- `self._state['willing']` would raise `KeyError` (key absent). -/
  | keyError
deriving DecidableEq, Repr

/-- One iteration of the loop in `App._try_takeover`: sleep 3 ticks,
stop when a master exists, otherwise — when ranked among the best —
recompute the local state with `update_state()` and either abstain
(`willing` is `None`) or attempt `dcs_lock('master')`. -/
def tryTakeoverIteration (env : Env) (app : AppState) :
    AppState × List Effect × TakeoverStep :=
  let e0 := [Effect.async_sleep 3]
  if app.master_lock_owner ≠ Option.none then (app, e0, TakeoverStep.brk)
  else if am_i_best_replica env app then
    let u := update_state env app []
    let app := u.1
    match aget app.state "willing" with
    | Option.none => (app, e0 ++ u.2, TakeoverStep.keyError)
    | some Val.null => (app, e0 ++ u.2, TakeoverStep.abstainedUnwilling)
    | some _ =>
      (app, e0 ++ u.2 ++ [Effect.dcs_lock "master"], TakeoverStep.lockAttempted)
  else (app, e0, TakeoverStep.abstainedNotBest)

/-- Whether any registered `veto_takeover` provider vetoes: vacuously
true when no provider is registered. -/
def noVeto (env : Env) : Bool :=
  match env.vetoes with
  | Option.none => true
  | some vs => !vs.any (fun p => p.2)

/-! ## Dictionary lemmas -/

theorem aget_aset_self {α : Type} (d : Assoc α) (k : String) (v : α) :
    aget (aset d k v) k = some v := by
  induction d with
  | nil => simp [aset, aget]
  | cons kv rest ih =>
    by_cases h : kv.1 = k
    · simp [aset, h, aget]
    · simp [aset, h, aget, ih]

theorem aget_aset_ne {α : Type} (d : Assoc α) {k k' : String} (v : α)
    (h : k ≠ k') : aget (aset d k v) k' = aget d k' := by
  induction d with
  | nil => simp [aset, aget, h]
  | cons kv rest ih =>
    by_cases hk : kv.1 = k
    · subst hk
      simp [aset, aget, h, ih]
    · simp [aset, hk, aget, ih]

theorem acontains_aset {α : Type} (d : Assoc α) (k : String) (v : α)
    (k' : String) :
    acontains (aset d k v) k' = (decide (k = k') || acontains d k') := by
  by_cases h : k = k'
  · subst h
    simp [acontains, aget_aset_self]
  · simp [acontains, aget_aset_ne d v h, h]

theorem aerase_aset_absent {α : Type} (d : Assoc α) {k : String} (v : α)
    (h : aget d k = Option.none) : aerase (aset d k v) k = d := by
  induction d with
  | nil => simp [aset, aerase]
  | cons kv rest ih =>
    by_cases hk : kv.1 = k
    · rw [aget, if_pos hk] at h
      cases h
    · rw [aget, if_neg hk] at h
      simp [aset, hk, aerase, ih h]

/-! ## Lemmas on `_update_auto_state` and `update_state` -/

theorem aget_updateAutoState (env : Env) (st : Doc) {k : String}
    (h : k ≠ "willing") :
    aget (updateAutoState env st).1 k = aget st k := by
  simp only [updateAutoState]
  split
  · exact aget_aset_ne st _ (Ne.symm h)
  · split
    · exact aget_aset_ne st _ (Ne.symm h)
    · rfl

theorem updateAutoState_willing_iff (env : Env) (st : Doc) :
    dgetD (updateAutoState env st).1 "willing" Val.null ≠ Val.null ↔
      willingFlag env st = true := by
  simp only [updateAutoState]
  split
  · rename_i hc
    simp [dgetD, aget_aset_self, hc.1]
  · split
    · rename_i hc
      simp only [dgetD, aget_aset_self, Option.getD_some]
      simp [hc.1]
    · rename_i h1 h2
      by_cases hf : willingFlag env st = true
      · simp only [hf, iff_true]
        exact fun hn => h1 ⟨hf, hn⟩
      · constructor
        · intro hne
          exact absurd ⟨hf, hne⟩ h2
        · intro hw
          exact absurd hw hf

theorem willingFlag_congr {env env' : Env} {st st' : Doc}
    (hv : env'.vetoes = env.vetoes)
    (hh : aget st' "health_problems" = aget st "health_problems")
    (hr : aget st' "replication_role" = aget st "replication_role") :
    willingFlag env' st' = willingFlag env st := by
  unfold willingFlag dgetD
  rw [hv, hh, hr]

theorem updateAutoState_idem (env env' : Env) (st : Doc)
    (hv : env'.vetoes = env.vetoes) :
    updateAutoState env' (updateAutoState env st).1 =
      ((updateAutoState env st).1, false) := by
  have hwill := updateAutoState_willing_iff env st
  have hh := aget_updateAutoState env st (k := "health_problems") (by decide)
  have hr := aget_updateAutoState env st (k := "replication_role") (by decide)
  set st' := (updateAutoState env st).1 with hst'
  have hflag : willingFlag env' st' = willingFlag env st :=
    willingFlag_congr hv hh hr
  simp only [updateAutoState, hflag]
  by_cases hw : willingFlag env st = true
  · have hne : dgetD st' "willing" Val.null ≠ Val.null := hwill.mpr hw
    rw [if_neg (fun hc => hne hc.2), if_neg (fun hc => hc.1 hw)]
  · have hnull : dgetD st' "willing" Val.null = Val.null := by
      by_contra hne
      exact hw (hwill.mp hne)
    rw [if_neg (fun hc => hw hc.1), if_neg (fun hc => hc.2 hnull)]

theorem willingFlag_eq_conj (env : Env) (st : Doc) :
    willingFlag env st =
      (!pythonTruthy (dgetD st "health_problems" (Val.bool true)) &&
        (decide (dgetD st "replication_role" Val.null = Val.str "replica") &&
          noVeto env)) := by
  unfold willingFlag noVeto
  by_cases h1 : pythonTruthy (dgetD st "health_problems" (Val.bool true))
  · simp [h1]
  · by_cases h2 : dgetD st "replication_role" Val.null = Val.str "replica"
    · cases hv : env.vetoes with
      | none => simp [h1, h2, hv]
      | some vs => by_cases h3 : vs.any (fun p => p.2) <;> simp [h1, h2, hv, h3]
    · simp [h1, h2]

/-- Both branches of `update_state` return the same object state. -/
theorem update_state_fst (env : Env) (app : AppState)
    (kw : List (String × Val)) :
    (update_state env app kw).1 =
      { app with
        state := (updateAutoState env
          (mergeKW app.conn_info (app.state, false) kw).1).1 } := by
  simp only [update_state]
  split <;> rfl

/-- `update_state` emits either nothing or exactly one DCS write. -/
theorem update_state_effects_shape (env : Env) (app : AppState)
    (kw : List (String × Val)) :
    (update_state env app kw).2 = [] ∨
      ∃ d, (update_state env app kw).2 = [Effect.dcs_set_state d] := by
  simp only [update_state]
  split
  · exact Or.inr ⟨_, rfl⟩
  · exact Or.inl rfl

/-- Shared helper: with the reserved initialization problem present,
`update_state` emits no effect. -/
theorem update_state_no_write_init (env : Env) (app : AppState)
    (kw : List (String × Val))
    (h : acontains app.health_problems "zgres.initialize" = true) :
    (update_state env app kw).2 = [] := by
  simp only [update_state]
  rw [if_neg (fun hc => hc.2 h)]

/-- `update_state` never touches `health_problems` (the attribute). -/
theorem update_state_health_problems (env : Env) (app : AppState)
    (kw : List (String × Val)) :
    (update_state env app kw).1.health_problems = app.health_problems := by
  rw [update_state_fst]

/-- `update_state` never touches `_conn_info`. -/
theorem update_state_conn_info (env : Env) (app : AppState)
    (kw : List (String × Val)) :
    (update_state env app kw).1.conn_info = app.conn_info := by
  rw [update_state_fst]

/-- The merge loop never touches keys that are not among the keyword
arguments. -/
theorem aget_mergeKW_stable (ci : Doc) (kw : List (String × Val)) :
    ∀ (st : Doc) (b : Bool) (k : String), (∀ kv ∈ kw, kv.1 ≠ k) →
      aget (mergeKW ci (st, b) kw).1 k = aget st k := by
  induction kw with
  | nil => intro st b k _; rfl
  | cons hd tl ih =>
    intro st b k h
    have hhd : hd.1 ≠ k := h hd (List.mem_cons_self hd tl)
    have htl : ∀ kv ∈ tl, kv.1 ≠ k := fun kv hm => h kv (List.mem_cons_of_mem hd hm)
    show aget (mergeKW ci (mergeStep ci (st, b) hd) tl).1 k = aget st k
    unfold mergeStep
    split
    · exact ih st b k htl
    · split
      · split
        · exact ih st b k htl
        · rw [show (aset st hd.1 hd.2, true) = ((aset st hd.1 hd.2 : Doc), true) from rfl]
          rw [ih (aset st hd.1 hd.2) true k htl]
          exact aget_aset_ne st hd.2 hhd
      · rw [ih (aset st hd.1 hd.2) true k htl]
        exact aget_aset_ne st hd.2 hhd

/-- After the merge loop, every non-skipped keyword argument is bound
to its given value (keyword keys are pairwise distinct, as Python
guarantees for `**kw`). -/
theorem aget_mergeKW_establishes (ci : Doc) (kw : List (String × Val))
    (hnodup : (kw.map Prod.fst).Nodup) :
    ∀ (st : Doc) (b : Bool), ∀ kv ∈ kw,
      (kv.1 = "willing" ∨ acontains ci kv.1 = true) ∨
        aget (mergeKW ci (st, b) kw).1 kv.1 = some kv.2 := by
  induction kw with
  | nil => intro st b kv hm; cases hm
  | cons hd tl ih =>
    intro st b kv hm
    have hnd_tl : (tl.map Prod.fst).Nodup := (List.nodup_cons.mp hnodup).2
    have hhd_tl : hd.1 ∉ tl.map Prod.fst := (List.nodup_cons.mp hnodup).1
    rcases List.mem_cons.mp hm with heq | hmem
    · subst heq
      by_cases hskip : kv.1 = "willing" ∨ acontains ci kv.1 = true
      · exact Or.inl hskip
      · refine Or.inr ?_
        have hstable : ∀ kv' ∈ tl, kv'.1 ≠ kv.1 := by
          intro kv' hm' heq'
          exact hhd_tl (heq' ▸ List.mem_map_of_mem Prod.fst hm')
        show aget (mergeKW ci (mergeStep ci (st, b) kv) tl).1 kv.1 = some kv.2
        unfold mergeStep
        rw [if_neg hskip]
        split
        · rename_i existing hex
          split
          · rename_i hveq
            rw [aget_mergeKW_stable ci tl st b kv.1 hstable, hex, hveq]
          · rw [show (aset st kv.1 kv.2, true) = ((aset st kv.1 kv.2 : Doc), true) from rfl]
            rw [aget_mergeKW_stable ci tl (aset st kv.1 kv.2) true kv.1 hstable]
            exact aget_aset_self st kv.1 kv.2
        · rw [aget_mergeKW_stable ci tl (aset st kv.1 kv.2) true kv.1 hstable]
          exact aget_aset_self st kv.1 kv.2
    · show (kv.1 = "willing" ∨ acontains ci kv.1 = true) ∨
        aget (mergeKW ci (mergeStep ci (st, b) hd) tl).1 kv.1 = some kv.2
      rcases mergeStep ci (st, b) hd with ⟨st', b'⟩
      exact ih hnd_tl st' b' kv hmem

/-- The merge loop is the identity when every non-skipped keyword
argument is already bound to its given value. -/
theorem mergeKW_fixed (ci : Doc) (kw : List (String × Val)) :
    ∀ (st : Doc) (b : Bool),
      (∀ kv ∈ kw, (kv.1 = "willing" ∨ acontains ci kv.1 = true) ∨
        aget st kv.1 = some kv.2) →
      mergeKW ci (st, b) kw = (st, b) := by
  induction kw with
  | nil => intro st b _; rfl
  | cons hd tl ih =>
    intro st b h
    show mergeKW ci (mergeStep ci (st, b) hd) tl = (st, b)
    have hstep : mergeStep ci (st, b) hd = (st, b) := by
      unfold mergeStep
      rcases h hd (List.mem_cons_self hd tl) with hskip | hbound
      · rw [if_pos hskip]
      · split
        · rename_i hskip
          rfl
        · rw [hbound]
          simp
    rw [hstep]
    exact ih st b (fun kv hm => h kv (List.mem_cons_of_mem hd hm))

/-! ## Concrete data for witnesses -/

/-- A concrete plugin environment used by the witness theorems. -/
def defaultEnv : Env :=
  { now := 1000
    vetoes := Option.none
    replication_role := some "replica"
    role_after_stop_replication := some "master"
    role_at_restart := some "replica"
    pg_timeline := 1
    dcs_timeline := 1
    my_id := "me"
    dcs_database_identifier := some "db1"
    pg_database_identifier := "db1"
    master_lock_granted := true
    lock_owner := Option.none
    mb_pg_database_identifier := "db1"
    mb_dbid_lock_granted := true
    mb_dcs_dbid_after_lock := Option.none
    mb_set_dbid_ok := true
    rb_restore_raises := false
    rb_pg_database_identifier := "db1"
    rb_role_after_setup := some "replica"
    conn_info_results := []
    dcs_states := []
    ranked_replicas := []
    healthy_lock_granted := true
    has_mlc_subscribers := false }

/-- A concrete agent that still carries the reserved initialization
problem. -/
def appInitializing : AppState :=
  { App.start with
    health_problems :=
      [("zgres.initialize", { reason := "Initializing", can_be_replica := false })] }

/-! ## Claim theorems -/

/-- C1: after any `update_state` call, the derived `willing` field of
the published state document is non-null iff the document records no
health problems (its `health_problems` entry is recorded and empty —
an absent entry counts as unhealthy, per the
`state.get('health_problems', True)` default in the source), its
`replication_role` is `'replica'`, and no registered `veto_takeover`
provider vetoes the takeover.  Every mutation of these conditions goes
through `update_state` (`unhealthy` and `healthy` both end in it), so
`willing` is recomputed accordingly on every such operation. -/
theorem update_state_willing_iff (env : Env) (app : AppState)
    (kw : List (String × Val)) :
    dgetD ((update_state env app kw).1).state "willing" Val.null ≠ Val.null ↔
      pythonTruthy (dgetD ((update_state env app kw).1).state
          "health_problems" (Val.bool true)) = false ∧
        dgetD ((update_state env app kw).1).state "replication_role" Val.null =
          Val.str "replica" ∧
        noVeto env = true := by
  rw [update_state_fst]
  dsimp only
  set m1 := (mergeKW app.conn_info (app.state, false) kw).1 with hm
  have hh := aget_updateAutoState env m1 (k := "health_problems") (by decide)
  have hr := aget_updateAutoState env m1 (k := "replication_role") (by decide)
  rw [updateAutoState_willing_iff env m1, willingFlag_eq_conj]
  unfold dgetD
  rw [hh, hr]
  simp [Bool.and_eq_true, Bool.not_eq_true', decide_eq_true_eq, and_assoc, dgetD]

/-- C4: whenever the reserved initialization key `'zgres.initialize'`
is present in `health_problems`, `update_state` performs no
`dcs_set_state` write — its effect trace is empty — regardless of how
the merged document changed. -/
theorem update_state_suppressed_when_initializing (env : Env)
    (app : AppState) (kw : List (String × Val))
    (h : acontains app.health_problems "zgres.initialize" = true) :
    (update_state env app kw).2 = [] :=
  update_state_no_write_init env app kw h

/-- Witness for C4 at a concrete input. -/
theorem update_state_suppressed_when_initializing_witness :
    acontains appInitializing.health_problems "zgres.initialize" = true ∧
      (update_state defaultEnv appInitializing
        [("replication_role", Val.str "replica")]).2 = [] :=
  ⟨by decide,
   update_state_suppressed_when_initializing defaultEnv appInitializing
     [("replication_role", Val.str "replica")] (by decide)⟩

/-- C8: repeated `update_state` calls with equal keyword arguments
produce exactly one DCS write.  A single call emits either nothing or
exactly one `dcs_set_state`; the first call that changes the merged
document — the change flag the source computes by deep equality over
the merge and the automatic-state recomputation — does perform the
write when the agent is not initializing, its trace being exactly one
`dcs_set_state` of the merged document; and repeating the call on the
resulting agent (with the same veto answers, `Nodup` keyword keys as
Python guarantees) changes nothing and emits no further write, so the
two calls together emit exactly that one write. -/
theorem update_state_write_coalescing (env env2 : Env) (app : AppState)
    (kw : List (String × Val)) (hnodup : (kw.map Prod.fst).Nodup)
    (hveto : env2.vetoes = env.vetoes) :
    update_state env2 (update_state env app kw).1 kw =
        ((update_state env app kw).1, []) ∧
      ((update_state env app kw).2 = [] ∨
        ∃ d, (update_state env app kw).2 = [Effect.dcs_set_state d]) ∧
      (((updateAutoState env
            (mergeKW app.conn_info (app.state, false) kw).1).2 ||
          (mergeKW app.conn_info (app.state, false) kw).2) = true →
        acontains app.health_problems "zgres.initialize" = false →
        (update_state env app kw).2 =
            [Effect.dcs_set_state ((update_state env app kw).1).state] ∧
          (update_state env app kw).2 ++
              (update_state env2 (update_state env app kw).1 kw).2 =
            [Effect.dcs_set_state ((update_state env app kw).1).state]) := by
  have hsecond : update_state env2 (update_state env app kw).1 kw =
      ((update_state env app kw).1, []) := by
    have hfst := update_state_fst env app kw
    set st1 := (updateAutoState env
      (mergeKW app.conn_info (app.state, false) kw).1).1 with hst1
    set app1 := (update_state env app kw).1 with happ1
    have hci : app1.conn_info = app.conn_info := by rw [hfst]
    have hhp : app1.health_problems = app.health_problems := by rw [hfst]
    have hst : app1.state = st1 := by rw [hfst]
    have hbase := aget_mergeKW_establishes app.conn_info kw hnodup app.state false
    have h2 : ∀ kv ∈ kw,
        (kv.1 = "willing" ∨ acontains app.conn_info kv.1 = true) ∨
          aget st1 kv.1 = some kv.2 := by
      intro kv hmem
      by_cases hw : kv.1 = "willing"
      · exact Or.inl (Or.inl hw)
      · rcases hbase kv hmem with hskip | hbound
        · exact Or.inl hskip
        · refine Or.inr ?_
          rw [hst1, aget_updateAutoState env _ hw]
          exact hbound
    have hmfix : mergeKW app.conn_info (st1, false) kw = (st1, false) :=
      mergeKW_fixed app.conn_info kw st1 false h2
    have hidem : updateAutoState env2 st1 = (st1, false) := by
      rw [hst1]
      exact updateAutoState_idem env env2 _ hveto
    simp only [update_state, hci, hst, hmfix, hidem]
    simp
    rw [← hst, ← hci]
  refine ⟨hsecond, update_state_effects_shape env app kw, ?_⟩
  intro hchanged hinit
  have hwrite : (update_state env app kw).2 =
      [Effect.dcs_set_state ((update_state env app kw).1).state] := by
    rw [update_state_fst]
    simp only [update_state]
    rw [if_pos ⟨hchanged, by rw [hinit]; exact Bool.false_ne_true⟩]
  refine ⟨hwrite, ?_⟩
  rw [hsecond, hwrite]
  simp

/-- The keyword arguments of the C8 witness. -/
def kwC8 : List (String × Val) := [("replication_role", Val.str "replica")]

/-- Witness for C8 at a concrete input: the first call changes the
merged document while not initializing and emits exactly the one
`dcs_set_state` write; the repeated call emits nothing. -/
theorem update_state_write_coalescing_witness :
    ((kwC8.map Prod.fst).Nodup ∧
      defaultEnv.vetoes = defaultEnv.vetoes ∧
      ((updateAutoState defaultEnv
          (mergeKW App.start.conn_info (App.start.state, false) kwC8).1).2 ||
        (mergeKW App.start.conn_info (App.start.state, false) kwC8).2) = true ∧
      acontains App.start.health_problems "zgres.initialize" = false) ∧
      (update_state defaultEnv
          (update_state defaultEnv App.start kwC8).1 kwC8 =
        ((update_state defaultEnv App.start kwC8).1, []) ∧
        (update_state defaultEnv App.start kwC8).2 =
          [Effect.dcs_set_state
            ((update_state defaultEnv App.start kwC8).1).state] ∧
        (update_state defaultEnv App.start kwC8).2 ++
            (update_state defaultEnv
              (update_state defaultEnv App.start kwC8).1 kwC8).2 =
          [Effect.dcs_set_state
            ((update_state defaultEnv App.start kwC8).1).state]) :=
  ⟨⟨by decide, rfl, by decide, by decide⟩,
   (update_state_write_coalescing defaultEnv defaultEnv App.start kwC8
      (by decide) rfl).1,
   ((update_state_write_coalescing defaultEnv defaultEnv App.start kwC8
      (by decide) rfl).2.2 (by decide) (by decide)).1,
   ((update_state_write_coalescing defaultEnv defaultEnv App.start kwC8
      (by decide) rfl).2.2 (by decide) (by decide)).2⟩

/-- A state document is well formed for `willing_replicas` when its
`willing` entry is absent, `None`, or a numeric timestamp — on any
other value the source's `state['willing'] + 600` would raise
`TypeError`. -/
def willingWellFormed (st : Doc) : Bool :=
  match aget st "willing" with
  | Option.none => true
  | some Val.null => true
  | some (Val.num _) => true
  | some _ => false

theorem willingFilter_iff (now : Int) (st : Doc)
    (hwf : willingWellFormed st = true) :
    willingFilter now st = true ↔
      ∃ t : Int, aget st "willing" = some (Val.num t) ∧
        t + WILLINGNESS_MIN_AGE < now := by
  unfold willingWellFormed at hwf
  unfold willingFilter
  cases hag : aget st "willing" with
  | none => simp
  | some v =>
    rw [hag] at hwf
    cases v with
    | null => simp
    | num t => simp [valAsTime]
    | bool b => cases hwf
    | str s => cases hwf
    | problems d => cases hwf
    | dict d => cases hwf

/-- C3: `willing_replicas` yields exactly the `(id, state)` pairs whose
state has a non-null numeric `willing` timestamp with
`willing + 600 < now`; the 600-second threshold
(`WILLINGNESS_MIN_AGE`) is a hard-coded literal of the source, and an
entry whose willing age is exactly 600 seconds or less is excluded. -/
theorem willing_replicas_age_gate (states : List (String × Doc))
    (now : Int) (hwf : ∀ p ∈ states, willingWellFormed p.2 = true) :
    (∀ id st, (id, st) ∈ willing_replicas now states ↔
      (id, st) ∈ states ∧ ∃ t : Int, aget st "willing" = some (Val.num t) ∧
        t + WILLINGNESS_MIN_AGE < now) ∧
    WILLINGNESS_MIN_AGE = 600 ∧
    (∀ id st (t : Int), (id, st) ∈ states →
      aget st "willing" = some (Val.num t) → now ≤ t + WILLINGNESS_MIN_AGE →
      (id, st) ∉ willing_replicas now states) := by
  have hmem : ∀ id st, (id, st) ∈ willing_replicas now states ↔
      (id, st) ∈ states ∧ ∃ t : Int, aget st "willing" = some (Val.num t) ∧
        t + WILLINGNESS_MIN_AGE < now := by
    intro id st
    unfold willing_replicas
    rw [List.mem_filter]
    constructor
    · rintro ⟨hm, hf⟩
      exact ⟨hm, (willingFilter_iff now st (hwf (id, st) hm)).mp hf⟩
    · rintro ⟨hm, hex⟩
      exact ⟨hm, (willingFilter_iff now st (hwf (id, st) hm)).mpr hex⟩
  refine ⟨hmem, rfl, ?_⟩
  intro id st t hm hag hle hin
  rcases (hmem id st).mp hin with ⟨-, t', hag', hlt⟩
  rw [hag] at hag'
  cases hag'
  exact absurd hlt (not_lt.mpr hle)

/-- Concrete peer states for the C3 witness: one old-enough willing
replica, one unwilling, one too young (age exactly 600). -/
def statesW : List (String × Doc) :=
  [("a", [("willing", Val.num 300)]),
   ("b", [("willing", Val.null)]),
   ("c", [("willing", Val.num 400)])]

/-- Witness for C3 at a concrete input (`now = 1000`: node `a` is 700
seconds willing, node `c` exactly 600). -/
theorem willing_replicas_age_gate_witness :
    (∀ p ∈ statesW, willingWellFormed p.2 = true) ∧
      ((∀ id st, (id, st) ∈ willing_replicas 1000 statesW ↔
        (id, st) ∈ statesW ∧ ∃ t : Int, aget st "willing" = some (Val.num t) ∧
          t + WILLINGNESS_MIN_AGE < 1000) ∧
      WILLINGNESS_MIN_AGE = 600 ∧
      (∀ id st (t : Int), (id, st) ∈ statesW →
        aget st "willing" = some (Val.num t) → 1000 ≤ t + WILLINGNESS_MIN_AGE →
        (id, st) ∉ willing_replicas 1000 statesW)) :=
  ⟨by decide, willing_replicas_age_gate statesW 1000 (by decide)⟩

/-- The object state `unhealthy` returns is exactly the one
`update_state` returns after the problem is recorded. -/
theorem unhealthy_fst (env : Env) (app : AppState) (key reason : String)
    (cbr : Bool) :
    (unhealthy env app key reason cbr).1 =
      (update_state env
        { app with
          health_problems :=
            aset app.health_problems key
              { reason := reason, can_be_replica := cbr } }
        [("health_problems",
          Val.problems (aset app.health_problems key
            { reason := reason, can_be_replica := cbr }))]).1 := rfl

theorem unhealthy_fst_health_problems (env : Env) (app : AppState)
    (key reason : String) (cbr : Bool) :
    (unhealthy env app key reason cbr).1.health_problems =
      aset app.health_problems key
        { reason := reason, can_be_replica := cbr } := by
  rw [unhealthy_fst, update_state_health_problems]

theorem update_state_misc (env : Env) (app : AppState)
    (kw : List (String × Val)) :
    (update_state env app kw).1.my_id = app.my_id ∧
    (update_state env app kw).1.database_identifier = app.database_identifier ∧
    (update_state env app kw).1.master_lock_owner = app.master_lock_owner ∧
    (update_state env app kw).1.exit_code = app.exit_code := by
  rw [update_state_fst]
  exact ⟨rfl, rfl, rfl, rfl⟩

/-- A concrete agent for the C9 counterexample: the key `disk` is
already an active health problem. -/
def appC9 : AppState :=
  { App.start with
    health_problems := [("disk", { reason := "old", can_be_replica := false })] }

/-- C9 counterexample: when the key is already a health problem
(`disk` with reason `old`), `unhealthy('disk', 'new', True)` followed
by `healthy('disk')` leaves `health_problems` empty instead of
restoring the prior one-entry mapping — `healthy` pops the key, it does
not restore the overwritten value. -/
theorem unhealthy_healthy_no_roundtrip_cex :
    (healthy defaultEnv (unhealthy defaultEnv appC9 "disk" "new" true).1
        "disk").1.health_problems ≠ appC9.health_problems := by
  decide

/-- C9 amended: if `k` is not currently a health problem,
`unhealthy(k, …)` followed by `healthy(k)` returns `health_problems`
to its prior value; and `healthy(k)` when `k` is absent is a no-op
returning the agent unchanged with no effects. -/
theorem unhealthy_healthy_roundtrip (env env2 : Env) (app : AppState)
    (k reason : String) (cbr : Bool)
    (habs : aget app.health_problems k = Option.none) :
    (healthy env2 (unhealthy env app k reason cbr).1 k).1.health_problems =
        app.health_problems ∧
      healthy env app k = (app, []) := by
  constructor
  · have h1 := unhealthy_fst_health_problems env app k reason cbr
    simp only [healthy, h1, aget_aset_self]
    rw [update_state_health_problems]
    exact aerase_aset_absent app.health_problems _ habs
  · simp only [healthy, habs]

/-- Witness for the amended C9 at a concrete input. -/
theorem unhealthy_healthy_roundtrip_witness :
    aget App.start.health_problems "disk" = Option.none ∧
      ((healthy defaultEnv (unhealthy defaultEnv App.start "disk" "broken"
          false).1 "disk").1.health_problems = App.start.health_problems ∧
        healthy defaultEnv App.start "disk" = (App.start, [])) :=
  ⟨rfl,
   unhealthy_healthy_roundtrip defaultEnv defaultEnv App.start "disk"
     "broken" false rfl⟩

/-- C10: with the reserved initialization key `'zgres.initialize'`
present in `health_problems`, `unhealthy` only records the problem and
updates the local state document: its effect trace is empty — in
particular it never calls `dcs_delete_conn_info` and never schedules
the unhealthy-master handler — and every other attribute is unchanged,
for every key, replication role and `can_be_replica` value. -/
theorem unhealthy_frame_when_initializing (env : Env) (app : AppState)
    (key reason : String) (cbr : Bool)
    (h : acontains app.health_problems "zgres.initialize" = true) :
    (unhealthy env app key reason cbr).2 = [] ∧
    Effect.dcs_delete_conn_info ∉ (unhealthy env app key reason cbr).2 ∧
    (∀ n, Effect.sched_unhealthy_master n ∉
      (unhealthy env app key reason cbr).2) ∧
    (unhealthy env app key reason cbr).1.health_problems =
      aset app.health_problems key
        { reason := reason, can_be_replica := cbr } ∧
    (unhealthy env app key reason cbr).1.conn_info = app.conn_info ∧
    (unhealthy env app key reason cbr).1.my_id = app.my_id ∧
    (unhealthy env app key reason cbr).1.database_identifier =
      app.database_identifier ∧
    (unhealthy env app key reason cbr).1.master_lock_owner =
      app.master_lock_owner ∧
    (unhealthy env app key reason cbr).1.exit_code = app.exit_code := by
  have hset : acontains
      (aset app.health_problems key
        { reason := reason, can_be_replica := cbr }) "zgres.initialize" = true := by
    rw [acontains_aset]
    simp [h]
  have heff : (unhealthy env app key reason cbr).2 = [] := by
    show (update_state env _ _).2 ++
      unhealthyEffects env ((update_state env _ _).1.health_problems) cbr = []
    rw [update_state_no_write_init _ _ _ hset]
    rw [List.nil_append]
    unfold unhealthyEffects
    rw [update_state_health_problems, if_pos hset]
  refine ⟨heff, ?_, ?_, unhealthy_fst_health_problems env app key reason cbr,
    ?_, ?_, ?_, ?_, ?_⟩
  · rw [heff]; exact List.not_mem_nil _
  · intro n; rw [heff]; exact List.not_mem_nil _
  · rw [unhealthy_fst, update_state_conn_info]
  · rw [unhealthy_fst]; exact (update_state_misc env _ _).1
  · rw [unhealthy_fst]; exact (update_state_misc env _ _).2.1
  · rw [unhealthy_fst]; exact (update_state_misc env _ _).2.2.1
  · rw [unhealthy_fst]; exact (update_state_misc env _ _).2.2.2

/-- Witness for C10 at a concrete input. -/
theorem unhealthy_frame_when_initializing_witness :
    acontains appInitializing.health_problems "zgres.initialize" = true ∧
      (unhealthy defaultEnv appInitializing "disk" "broken" false).2 = [] :=
  ⟨by decide,
   (unhealthy_frame_when_initializing defaultEnv appInitializing "disk"
     "broken" false (by decide)).1⟩

/-- C6: in a takeover-attempt iteration where no master is known and
the agent has been ranked among the best replicas, if the
recomputation of the local state (`update_state()`) leaves `willing`
as `None`, the attempt is aborted: `dcs_lock('master')` is never
attempted and the iteration terminates abstaining. -/
theorem try_takeover_abstains_when_unwilling (env : Env) (app : AppState)
    (hown : app.master_lock_owner = Option.none)
    (hbest : am_i_best_replica env app = true)
    (hlost : aget (update_state env app []).1.state "willing" =
      some Val.null) :
    (tryTakeoverIteration env app).2.2 = TakeoverStep.abstainedUnwilling ∧
      ∀ s, Effect.dcs_lock s ∉ (tryTakeoverIteration env app).2.1 := by
  have hstep : tryTakeoverIteration env app =
      ((update_state env app []).1,
        [Effect.async_sleep 3] ++ (update_state env app []).2,
        TakeoverStep.abstainedUnwilling) := by
    simp only [tryTakeoverIteration, hown, hbest, hlost]
    simp
  rw [hstep]
  refine ⟨rfl, ?_⟩
  intro s
  rcases update_state_effects_shape env app [] with hnil | ⟨d, hd⟩
  · rw [hnil]
    simp
  · rw [hd]
    simp

/-- A concrete agent for the C6 witness: published as willing earlier,
now carrying a health problem in its state document, ranked best. -/
def appC6 : AppState :=
  { App.start with
    my_id := some "me"
    state := [("health_problems",
                Val.problems [("disk", { reason := "d", can_be_replica := false })]),
              ("willing", Val.num 5)] }

/-- Environment for the C6 witness: the ranker returns this node. -/
def envC6 : Env := { defaultEnv with ranked_replicas := [("me", [])] }

/-- Witness for C6 at a concrete input. -/
theorem try_takeover_abstains_when_unwilling_witness :
    (appC6.master_lock_owner = Option.none ∧
      am_i_best_replica envC6 appC6 = true ∧
      aget (update_state envC6 appC6 []).1.state "willing" =
        some Val.null) ∧
      ((tryTakeoverIteration envC6 appC6).2.2 =
          TakeoverStep.abstainedUnwilling ∧
        ∀ s, Effect.dcs_lock s ∉ (tryTakeoverIteration envC6 appC6).2.1) :=
  ⟨⟨rfl, by decide, by decide⟩,
   try_takeover_abstains_when_unwilling envC6 appC6 rfl (by decide) (by decide)⟩

/-- The merge loop on a single non-skipped keyword argument binds it. -/
theorem aget_merged_single (ci st : Doc) (k : String) (v : Val)
    (hskip : ¬(k = "willing" ∨ acontains ci k = true)) :
    aget (mergeKW ci (st, false) [(k, v)]).1 k = some v := by
  show aget (mergeStep ci (st, false) (k, v)).1 k = some v
  unfold mergeStep
  rw [if_neg hskip]
  cases hag : aget st k with
  | none => exact aget_aset_self st k v
  | some ex =>
    by_cases hv : v = ex
    · simp only [if_pos hv]
      rw [hag, hv]
    · simp only [if_neg hv]
      exact aget_aset_self st k v

/-- The merge loop on a single non-skipped keyword argument reports a
change when the key was bound differently (or absent). -/
theorem merged_single_changed (ci st : Doc) (k : String) (v : Val)
    (hskip : ¬(k = "willing" ∨ acontains ci k = true))
    (hne : dgetD st k Val.null ≠ v) :
    (mergeKW ci (st, false) [(k, v)]).2 = true := by
  show (mergeStep ci (st, false) (k, v)).2 = true
  unfold mergeStep
  rw [if_neg hskip]
  cases hag : aget st k with
  | none => rfl
  | some ex =>
    have hvex : ¬ v = ex := by
      intro hv
      apply hne
      rw [dgetD, hag, hv]
      rfl
    simp only [if_neg hvex]

/-- When the merge loop changed a binding and the agent is not
initializing, `update_state` emits exactly one DCS write carrying the
final document. -/
theorem update_state_writes (env : Env) (app : AppState)
    (kw : List (String × Val))
    (hchanged : (mergeKW app.conn_info (app.state, false) kw).2 = true)
    (hinit : acontains app.health_problems "zgres.initialize" = false) :
    (update_state env app kw).2 =
      [Effect.dcs_set_state ((update_state env app kw).1).state] := by
  rw [update_state_fst]
  simp only [update_state]
  rw [if_pos]
  constructor
  · rw [hchanged, Bool.or_true]
  · rw [hinit]
    exact Bool.false_ne_true

/-- C2: on `master_lock_changed(owner)` — if `owner` equals `my_id`
and the database role is `'replica'`, the agent stops replication,
raises if the role did not become `'master'`, writes the database
timeline to the DCS, and publishes `replication_role='master'`
(the published conjunct assumes the realistic frame: `my_id` is set,
connection info does not reserve `replication_role`, the agent is not
initializing, and the document did not already claim `master`);
if `owner` differs from `my_id` while the database role is `'master'`,
the agent calls `restart(10)`; if `owner` is `None`, it schedules a
takeover attempt. -/
theorem master_lock_changed_cases (env : Env) (app : AppState)
    (owner : Option String) (m : String) (hid : app.my_id = some m) :
    (owner = some m → env.replication_role = some "replica" →
      (env.role_after_stop_replication ≠ some "master" →
        (master_lock_changed env app owner).raised =
            some "I should have become a master already!" ∧
          Effect.pg_stop_replication ∈
            (master_lock_changed env app owner).effects) ∧
      (env.role_after_stop_replication = some "master" →
        (master_lock_changed env app owner).raised = Option.none ∧
        Effect.pg_stop_replication ∈
          (master_lock_changed env app owner).effects ∧
        Effect.dcs_set_timeline env.pg_timeline ∈
          (master_lock_changed env app owner).effects ∧
        (acontains app.conn_info "replication_role" = false →
          dgetD (master_lock_changed env app owner).app.state
              "replication_role" Val.null = Val.str "master" ∧
          (acontains app.health_problems "zgres.initialize" = false →
            dgetD app.state "replication_role" Val.null ≠ Val.str "master" →
            ∃ d, Effect.dcs_set_state d ∈
                (master_lock_changed env app owner).effects ∧
              dgetD d "replication_role" Val.null = Val.str "master")))) ∧
    (owner ≠ some m → env.replication_role = some "master" →
      Effect.restart_call 10 ∈ (master_lock_changed env app owner).effects) ∧
    (owner = Option.none →
      Effect.sched_takeover ∈ (master_lock_changed env app owner).effects) := by
  refine ⟨?_, ?_, ?_⟩
  · intro howner hrole
    have howner' : owner = app.my_id := by rw [hid, howner]
    constructor
    · intro hafter
      simp only [master_lock_changed, if_pos howner', if_pos hrole,
        if_pos hafter]
      exact ⟨by trivial, List.mem_cons_self _ _⟩
    · intro hafter
      have hafter' : ¬ env.role_after_stop_replication ≠ some "master" :=
        fun hc => hc hafter
      simp only [master_lock_changed, if_pos howner', if_pos hrole,
        if_neg hafter']
      refine ⟨by trivial, by simp, by simp, ?_⟩
      intro hconn
      have hskip : ¬("replication_role" = "willing" ∨
          acontains app.conn_info "replication_role" = true) := by
        intro hc
        rcases hc with hc | hc
        · exact absurd hc (by decide)
        · rw [hconn] at hc
          cases hc
      have hfinal : dgetD
          (update_state env { app with master_lock_owner := owner }
            [("replication_role", Val.str "master")]).1.state
          "replication_role" Val.null = Val.str "master" := by
        rw [update_state_fst]
        show dgetD (updateAutoState env _).1 "replication_role" Val.null =
          Val.str "master"
        unfold dgetD
        rw [aget_updateAutoState env _ (by decide),
          aget_merged_single _ _ _ _ hskip]
        rfl
      refine ⟨hfinal, ?_⟩
      intro hinit hpre
      have hchanged : (mergeKW app.conn_info (app.state, false)
          [("replication_role", Val.str "master")]).2 = true :=
        merged_single_changed app.conn_info app.state _ _ hskip hpre
      have hwr := update_state_writes env
        { app with master_lock_owner := owner }
        [("replication_role", Val.str "master")] hchanged hinit
      refine ⟨(update_state env { app with master_lock_owner := owner }
          [("replication_role", Val.str "master")]).1.state, ?_, hfinal⟩
      rw [hwr]
      simp
  · intro howner hrole
    have howner' : ¬ owner = app.my_id := by rw [hid]; exact howner
    simp only [master_lock_changed, if_neg howner', if_pos hrole,
      restartEffects]
    simp
  · intro howner
    have howner' : ¬ owner = app.my_id := by
      rw [hid, howner]
      exact fun hc => Option.noConfusion hc
    simp only [master_lock_changed, if_neg howner', if_pos howner]
    simp

/-- Registering the reserved initialization problem is effect-silent:
the DCS write is suppressed and the unhealthy tail short-circuits. -/
theorem unhealthy_init_silent (env : Env) (app : AppState)
    (reason : String) (cbr : Bool) :
    (unhealthy env app "zgres.initialize" reason cbr).2 = [] := by
  have hset : acontains
      (aset app.health_problems "zgres.initialize"
        { reason := reason, can_be_replica := cbr }) "zgres.initialize" = true := by
    rw [acontains_aset]
    simp
  show (update_state env _ _).2 ++
    unhealthyEffects env ((update_state env _ _).1.health_problems) cbr = []
  rw [update_state_no_write_init _ _ _ hset, List.nil_append]
  unfold unhealthyEffects
  rw [update_state_health_problems, if_pos hset]

/-- A concrete agent for the C2 witness. -/
def appC2 : AppState := { App.start with my_id := some "me" }

/-- Environment for the C2 witness: the local database is a master. -/
def envC2 : Env := { defaultEnv with replication_role := some "master" }

/-- Witness for C2 at a concrete input: the lock became vacant while
this node runs as master, so it restarts in 10 ticks and schedules a
takeover. -/
theorem master_lock_changed_cases_witness :
    appC2.my_id = some "me" ∧
      (Effect.restart_call 10 ∈
          (master_lock_changed envC2 appC2 Option.none).effects ∧
        Effect.sched_takeover ∈
          (master_lock_changed envC2 appC2 Option.none).effects) :=
  ⟨rfl,
   ((master_lock_changed_cases envC2 appC2 Option.none "me" rfl).2.1
      (by decide) rfl),
   ((master_lock_changed_cases envC2 appC2 Option.none "me" rfl).2.2 rfl)⟩

/-- C7: during steady-state initialize, when the local role is
`'master'` but the master lock cannot be acquired, the agent stops the
database, calls `pg_reset` iff the DCS timeline is strictly greater
than the local timeline, and returns a retry interval of 5 ticks. -/
theorem initApp_master_lock_unavailable (env : Env) (app : AppState)
    (hdb : env.dcs_database_identifier = some env.pg_database_identifier)
    (hrole : env.replication_role = some "master")
    (hlock : env.master_lock_granted = false) :
    Effect.pg_stop ∈ (initApp env app).2.1 ∧
      (Effect.pg_reset ∈ (initApp env app).2.1 ↔
        env.dcs_timeline > env.pg_timeline) ∧
      (initApp env app).2.2 = Except.ok (some 5) := by
  have hu2 := unhealthy_init_silent env app "Initializing" false
  have hinitp : acontains
      ((unhealthy env app "zgres.initialize" "Initializing"
        false).1).health_problems "zgres.initialize" = true := by
    rw [unhealthy_fst_health_problems, acontains_aset]
    simp
  have hu22 : (update_state env
      { (unhealthy env app "zgres.initialize" "Initializing" false).1 with
        my_id := some env.my_id,
        database_identifier := some env.pg_database_identifier }
      [("replication_role", Val.str "master")]).2 = [] :=
    update_state_no_write_init _ _ _ hinitp
  simp only [initApp, hdb, hu2, hrole, hlock, List.nil_append]
  simp only [ne_eq, not_true_eq_false, if_false, ite_false]
  simp [hu22]

/-- Environment for the C7 witness: a master that cannot take the lock
while the DCS already records a newer timeline. -/
def envC7 : Env :=
  { defaultEnv with
    replication_role := some "master"
    master_lock_granted := false
    dcs_timeline := 5
    pg_timeline := 1 }

/-- Witness for C7 at a concrete input. -/
theorem initApp_master_lock_unavailable_witness :
    (envC7.dcs_database_identifier = some envC7.pg_database_identifier ∧
      envC7.replication_role = some "master" ∧
      envC7.master_lock_granted = false) ∧
      (Effect.pg_stop ∈ (initApp envC7 App.start).2.1 ∧
        (Effect.pg_reset ∈ (initApp envC7 App.start).2.1 ↔
          envC7.dcs_timeline > envC7.pg_timeline) ∧
        (initApp envC7 App.start).2.2 = Except.ok (some 5)) :=
  ⟨⟨rfl, rfl, rfl⟩,
   initApp_master_lock_unavailable envC7 App.start rfl rfl rfl⟩

/-- Environment for the C5 counterexample: replica bootstrap runs
(the DCS database identifier differs from the local one) and its
post-restore verification fails — the role after
`pg_setup_replication` is not `'replica'`. -/
def envC5 : Env :=
  { defaultEnv with
    dcs_database_identifier := some "dcsdb"
    pg_database_identifier := "localdb"
    rb_pg_database_identifier := "dcsdb"
    rb_role_after_setup := some "master" }

/-- C5 counterexample: at this input the post-restore verification
fails and the agent does reset the database, but the process does not
exit with code 5 — `replica_bootstrap`'s return value 5 is consumed by
`run` as a restart delay in ticks and `run` returns `_exit_code = 0`. -/
theorem replica_bootstrap_no_exit_code_5_cex :
    envC5.rb_role_after_setup ≠ some "replica" ∧
      Effect.pg_reset ∈ (run envC5 App.start).2.2 ∧
      (run envC5 App.start).1 = RunOutcome.exited 0 ∧
      ¬ (run envC5 App.start).1 = RunOutcome.exited 5 := by
  decide

/-- C5 amended: when replica bootstrap's post-restore verification
fails (the local role is not `'replica'` or the local database
identifier differs from the DCS identifier), the agent resets the
database and `replica_bootstrap` returns 5 — which `run` treats as a
retry interval, calling `restart(5)` (a blocking 5-tick sleep before
the supervisor restarts the process); the process exits with code 0,
not 5. -/
theorem replica_bootstrap_reset_and_retry (env : Env) (app : AppState)
    (d : String)
    (hdb : env.dcs_database_identifier = some d)
    (hne : env.pg_database_identifier ≠ d)
    (hrestore : env.rb_restore_raises = false)
    (hfail : env.rb_role_after_setup ≠ some "replica" ∨
      env.rb_pg_database_identifier ≠ d)
    (hexit : app.exit_code = 0) :
    Effect.pg_reset ∈ (run env app).2.2 ∧
      Effect.restart_call 5 ∈ (run env app).2.2 ∧
      Effect.sleep 5 ∈ (run env app).2.2 ∧
      (run env app).1 = RunOutcome.exited 0 := by
  have hu2 := unhealthy_init_silent env app "Initializing" false
  have hexit1 :
      ((unhealthy env app "zgres.initialize" "Initializing"
        false).1).exit_code = 0 := by
    rw [unhealthy_fst]
    rw [(update_state_misc env _ _).2.2.2]
    exact hexit
  have hfail' : env.rb_role_after_setup ≠ some "replica" ∨
      ¬ some env.rb_pg_database_identifier = some d := by
    rcases hfail with h | h
    · exact Or.inl h
    · exact Or.inr (fun hc => h (by injection hc))
  simp only [run, initApp, hdb, hu2, List.nil_append]
  rw [if_pos hne]
  simp only [replica_bootstrap, hrestore]
  rw [if_neg (by simp)]
  rw [if_pos hfail']
  simp [restartEffects, hexit1, Except.map]

/-- Witness for the amended C5 at a concrete input. -/
theorem replica_bootstrap_reset_and_retry_witness :
    (envC5.dcs_database_identifier = some "dcsdb" ∧
      envC5.pg_database_identifier ≠ "dcsdb" ∧
      envC5.rb_restore_raises = false ∧
      (envC5.rb_role_after_setup ≠ some "replica" ∨
        envC5.rb_pg_database_identifier ≠ "dcsdb") ∧
      App.start.exit_code = 0) ∧
      (Effect.pg_reset ∈ (run envC5 App.start).2.2 ∧
        Effect.restart_call 5 ∈ (run envC5 App.start).2.2 ∧
        Effect.sleep 5 ∈ (run envC5 App.start).2.2 ∧
        (run envC5 App.start).1 = RunOutcome.exited 0) :=
  ⟨⟨rfl, by decide, rfl, Or.inl (by decide), rfl⟩,
   replica_bootstrap_reset_and_retry envC5 App.start "dcsdb" rfl
     (by decide) rfl (Or.inl (by decide)) rfl⟩

end Zgres
